import Mathlib

/-
Shallow embedding of `src/dashboard.py` (streamlit sales dashboard).

Conventions of the embedding:
* pandas `DataFrame` rows are modelled as a `List Record`; a raw frame
  (which may lack the schema columns, as `pd.DataFrame()` does) is a `Frame`.
* floats are modelled as `ℚ`; Python's `f"{v:.2f}"` rendering is
  `formatFixed2` (round-half-even to two decimals, the behaviour of CPython
  on exactly representable inputs).
* the single `requests.get` + `raise_for_status` + `response.json()`
  interaction of `fetch_data` is modelled by an `HttpOutcome` argument;
  `st.error` reports are collected in a `List String`.
* `groupby` passes are modelled by the list of group keys together with the
  per-key filtered sum/count; pandas sorts group keys, and implements
  `sort_values(ascending=False)` by reversing an ascending argsort, which we
  model with the stable insertion sort `sortLeB` followed by `List.reverse`
  (the tie order of the default numpy quicksort is implementation-defined,
  and no theorem below depends on the tie order).
-/

namespace Dashboard

/-! ### Formatter: `format_number` (dashboard.py lines 39-58) -/

/-- Two-digit zero padding of the cents part of a decimal rendering. -/
def natPad2 (n : ℕ) : String :=
  if n < 10 then "0" ++ toString n else toString n

/-- Round a rational to the nearest integer, ties to the even integer
(the rounding CPython's fixed-point float formatting performs). -/
def roundHalfEven (x : ℚ) : ℤ :=
  if x - ⌊x⌋ < 1 / 2 then ⌊x⌋
  else if (1 / 2 : ℚ) < x - ⌊x⌋ then ⌊x⌋ + 1
  else if ⌊x⌋ % 2 = 0 then ⌊x⌋ else ⌊x⌋ + 1

/-- Absolute value, written out so it evaluates by the same `if` the
rendering uses for the sign. -/
def absQ (q : ℚ) : ℚ := if q < 0 then -q else q

/-- The number of cents (hundredths) in the two-decimal rendering of `|q|`. -/
def cents (q : ℚ) : ℕ := (roundHalfEven (absQ q * 100)).toNat

/-- Model of Python's `f"{q:.2f}"`: sign, integer part, point, two digits. -/
def formatFixed2 (q : ℚ) : String :=
  (if q < 0 then "-" else "") ++
    toString (cents q / 100) ++ "." ++ natPad2 (cents q % 100)

/-- `format_number(value, prefix="")` of dashboard.py.  The source loops over
`unit in ["", "mil"]`, returning `f"{prefix} {value:.2f} {unit}"` as soon as
`value < 1000` and dividing `value` by 1000 otherwise; after the loop it
returns `f"{prefix} {value:.2f} million"`.  With the empty unit the f-string
leaves a trailing space. -/
def format_number (value : ℚ) (pfx : String) : String :=
  if value < 1000 then
    pfx ++ " " ++ formatFixed2 value ++ " "
  else if value / 1000 < 1000 then
    pfx ++ " " ++ formatFixed2 (value / 1000) ++ " mil"
  else
    pfx ++ " " ++ formatFixed2 (value / 1000 / 1000) ++ " million"

/-! ### Data model -/

/-- One sales transaction row of the remote JSON dataset.  Fields correspond
to the columns used by dashboard.py: `"Data da Compra"` (parsed with format
`%d/%m/%Y`), `"Preço"`, `"Categoria do Produto"`, `"Vendedor"`,
`"Local da compra"`, `"lat"`, `"lon"`. -/
structure Record where
  day : ℕ
  month : ℕ
  year : ℕ
  price : ℚ
  category : String
  seller : String
  localName : String
  lat : ℚ
  lon : ℚ
deriving DecidableEq

/-- Sum of the `"Preço"` column (`datas["Preço"].sum()`). -/
def precoSum (T : List Record) : ℚ := (T.map Record.price).sum

/-- Per-group price sum: sum of `"Preço"` over the rows whose key equals `k`
(one cell of a `groupby(...)["Preço"].sum()`). -/
def sumPricesBy {κ : Type} [DecidableEq κ] (keyOf : Record → κ)
    (T : List Record) (k : κ) : ℚ :=
  ((T.filter fun r => decide (keyOf r = k)).map Record.price).sum

/-- Per-group record count (one cell of a `groupby(...)["Preço"].count()`). -/
def countBy {κ : Type} [DecidableEq κ] (keyOf : Record → κ)
    (T : List Record) (k : κ) : ℕ :=
  (T.filter fun r => decide (keyOf r = k)).length

/-! ### Filter stage (dashboard.py lines 79-83) -/

/-- `if seller_filter: datas = datas[datas["Vendedor"].isin(seller_filter)]`:
an empty selection leaves the table unchanged, a nonempty one keeps exactly
the rows whose seller is selected, in order. -/
def applySellerFilter (sel : List String) (T : List Record) : List Record :=
  if sel.isEmpty then T else T.filter fun r => decide (r.seller ∈ sel)

/-! ### Monthly bucketing (dashboard.py lines 85-92 and 119-123) -/

/-- Index of the calendar month of a purchase (strictly monotone in
chronological order, consecutive months differ by one). -/
def monthKey (r : Record) : ℕ := 12 * r.year + r.month

/-- The month-end buckets produced by `groupby(pd.Grouper(freq="M"))`:
every calendar month from the earliest to the latest purchase, in order;
months with no purchase are empty buckets. -/
def monthBins (T : List Record) : List ℕ :=
  match T.map monthKey with
  | [] => []
  | k :: ks =>
    List.range' (ks.foldl Nat.min k) (ks.foldl Nat.max k + 1 - ks.foldl Nat.min k)

/-- `monthly_income`: per-month sum of `"Preço"` over month-end buckets. -/
def monthly_income (T : List Record) : List (ℕ × ℚ) :=
  (monthBins T).map fun k => (k, sumPricesBy monthKey T k)

/-- `vendas_mensal`: per-month record count over the same buckets. -/
def vendas_mensal (T : List Record) : List (ℕ × ℕ) :=
  (monthBins T).map fun k => (k, countBy monthKey T k)

/-! ### Sorting helpers -/

/-- Stable insertion of `a` into `l` before the first element `b` with
`leB a b`. -/
def insertLeB {α : Type} (leB : α → α → Bool) (a : α) : List α → List α
  | [] => [a]
  | b :: l => if leB a b then a :: b :: l else b :: insertLeB leB a l

/-- Stable ascending insertion sort (the ascending argsort underlying
pandas `sort_values`). -/
def sortLeB {α : Type} (leB : α → α → Bool) : List α → List α
  | [] => []
  | b :: l => insertLeB leB b (sortLeB leB l)

/-- pandas `sort_values(..., ascending=False)`: an ascending argsort whose
result is reversed. -/
def sort_values_desc {α : Type} (leB : α → α → Bool) (l : List α) : List α :=
  (sortLeB leB l).reverse

/-- The sorted distinct keys of a string-keyed `groupby` (pandas sorts group
keys ascending by default). -/
def groupKeys (keyOf : Record → String) (T : List Record) : List String :=
  sortLeB (fun a b => decide (a ≤ b)) (T.map keyOf).dedup

/-! ### Category rollup (dashboard.py lines 94-98 and 125-127) -/

/-- `income_by_category`: per-category sum of `"Preço"`, sorted descending. -/
def income_by_category (T : List Record) : List (String × ℚ) :=
  sort_values_desc (fun a b => decide (a.2 ≤ b.2))
    ((groupKeys Record.category T).map fun k => (k, sumPricesBy Record.category T k))

/-- `vendas_categorias`: per-category record count, sorted descending. -/
def vendas_categorias (T : List Record) : List (String × ℕ) :=
  sort_values_desc (fun a b => decide (a.2 ≤ b.2))
    ((groupKeys Record.category T).map fun k => (k, countBy Record.category T k))

/-! ### Geographic rollup (dashboard.py lines 104-117) -/

/-- One row of the per-state tables: location name, the coordinates joined
back from `drop_duplicates(subset="Local da compra")`, and the aggregate. -/
structure StateRow (μ : Type) where
  name : String
  lat : ℚ
  lon : ℚ
  val : μ
deriving DecidableEq

/-- `datas.drop_duplicates(subset="Local da compra")`: keep the first row of
each location name, in original order (`seen` accumulates names kept). -/
def dropDupLocals : List Record → List String → List Record
  | [], _ => []
  | r :: rs, seen =>
    if r.localName ∈ seen then dropDupLocals rs seen
    else r :: dropDupLocals rs (r.localName :: seen)

/-- `income_of_the_states`: `groupby("Local da compra")[["Preço"]].sum()`,
merged onto the first-seen coordinates, sorted descending by sum. -/
def income_of_the_states (T : List Record) : List (StateRow ℚ) :=
  sort_values_desc (fun a b => decide (a.val ≤ b.val))
    ((dropDupLocals T []).map fun r =>
      ⟨r.localName, r.lat, r.lon, sumPricesBy Record.localName T r.localName⟩)

/-- `vendas_estados`: the same join with per-location record counts. -/
def vendas_estados (T : List Record) : List (StateRow ℕ) :=
  sort_values_desc (fun a b => decide (a.val ≤ b.val))
    ((dropDupLocals T []).map fun r =>
      ⟨r.localName, r.lat, r.lon, countBy Record.localName T r.localName⟩)

/-! ### Seller rollup (dashboard.py line 130) -/

/-- One row of `datas.groupby("Vendedor")["Preço"].agg(["sum", "count"])`. -/
structure SellerRow where
  name : String
  sum : ℚ
  count : ℕ
deriving DecidableEq

/-- `vendedores`: per-seller price sum and record count, one pass, keys in
pandas' sorted group-key order. -/
def vendedores (T : List Record) : List SellerRow :=
  (groupKeys Record.seller T).map fun k =>
    ⟨k, sumPricesBy Record.seller T k, countBy Record.seller T k⟩

/-! ### Data fetcher (dashboard.py lines 19-36) -/

/-- What the single `requests.get` call can produce: an HTTP response with a
status and (if it parses as JSON) a list of rows, or a transport failure
(`requests.exceptions.RequestException` with no response). -/
inductive HttpOutcome where
  | response (status : ℕ) (body : Option (List Record))
  | networkFailure (msg : String)
deriving DecidableEq

/-- A pandas frame as dashboard.py sees it: `pd.DataFrame()` (and a frame
built from an empty JSON array) has no columns, so `hasColumns` records
whether the schema columns exist. -/
structure Frame where
  hasColumns : Bool
  rows : List Record
deriving DecidableEq

/-- `pd.DataFrame.from_dict(response.json())`: columns exist exactly when
the JSON array is nonempty. -/
def Frame.ofJson (rows : List Record) : Frame := ⟨!rows.isEmpty, rows⟩

/-- `pd.DataFrame()`, the value returned on the error path: no columns. -/
def emptyFrame : Frame := ⟨false, []⟩

/-- `fetch_data`: one GET; `raise_for_status()` raises `HTTPError` exactly
for 4xx/5xx statuses, and that, a transport failure, or a JSON parse failure
is caught by the `except requests.exceptions.RequestException` clause, which
reports via `st.error` and returns `pd.DataFrame()`.  The first component
collects the `st.error` reports; the function is total (it never raises). -/
def fetch_data (outcome : HttpOutcome) : List String × Frame :=
  match outcome with
  | .networkFailure m => (["Error fetching data: " ++ m], emptyFrame)
  | .response status body =>
    if 400 ≤ status ∧ status < 600 then
      (["Error fetching data: HTTP " ++ toString status], emptyFrame)
    else
      match body with
      | some rows => ([], Frame.ofJson rows)
      | none => (["Error fetching data: invalid JSON"], emptyFrame)

/-! ### The top-level script (dashboard.py lines 76-236) -/

/-- Everything the rendering layer consumes, as computed by the script body. -/
structure DashboardView where
  incomeMetric : String
  quantityMetric : String
  monthly : List (ℕ × ℚ)
  monthlyCount : List (ℕ × ℕ)
  states : List (StateRow ℚ)
  statesCount : List (StateRow ℕ)
  categories : List (String × ℚ)
  categoriesCount : List (String × ℕ)
  sellers : List SellerRow
deriving DecidableEq

/-- The script body after `fetch_data`: line 77 evaluates
`datas["Data da Compra"]`, which raises `KeyError` when the frame has no
such column (as `pd.DataFrame()` from the error path does); otherwise the
seller filter and the aggregation passes run and the metrics are formatted. -/
def runDashboard (outcome : HttpOutcome) (sellerSel : List String) :
    Except String DashboardView :=
  let fetched := fetch_data outcome
  if fetched.2.hasColumns = false then
    Except.error "KeyError: Data da Compra"
  else
    let datas := applySellerFilter sellerSel fetched.2.rows
    Except.ok
      { incomeMetric := format_number (precoSum datas) "R$"
        quantityMetric := format_number (datas.length : ℚ) ""
        monthly := monthly_income datas
        monthlyCount := vendas_mensal datas
        states := income_of_the_states datas
        statesCount := vendas_estados datas
        categories := income_by_category datas
        categoriesCount := vendas_categorias datas
        sellers := vendedores datas }

/-! ### Sample rows used by concrete witnesses -/

/-- Sample row: seller Alice, location SP with coordinates (1, 2). -/
def rAliceSP : Record := ⟨1, 1, 2021, 10, "Books", "Alice", "SP", 1, 2⟩

/-- Sample row: seller Bob, location SP again but with coordinates (3, 4). -/
def rBobSP : Record := ⟨15, 1, 2021, 5, "Toys", "Bob", "SP", 3, 4⟩

/-- Sample row: seller Cara, location RJ, a purchase two months later. -/
def rCaraRJ : Record := ⟨20, 3, 2021, 7, "Books", "Cara", "RJ", 5, 6⟩

/-! ### Permutation facts about the sorting helpers -/

/-- Inserting an element is a permutation of consing it. -/
theorem insertLeB_perm {α : Type} (leB : α → α → Bool) (a : α) (l : List α) :
    List.Perm (insertLeB leB a l) (a :: l) := by
  induction l with
  | nil => exact List.Perm.refl _
  | cons b l ih =>
    simp only [insertLeB]
    split
    · exact List.Perm.refl _
    · exact (ih.cons b).trans (List.Perm.swap a b l)

/-- The insertion sort permutes its input. -/
theorem sortLeB_perm {α : Type} (leB : α → α → Bool) (l : List α) :
    List.Perm (sortLeB leB l) l := by
  induction l with
  | nil => exact List.Perm.refl _
  | cons b l ih => exact (insertLeB_perm leB b _).trans (ih.cons b)

/-- The descending sort permutes its input. -/
theorem sort_values_desc_perm {α : Type} (leB : α → α → Bool) (l : List α) :
    List.Perm (sort_values_desc leB l) l :=
  (List.reverse_perm _).trans (sortLeB_perm leB l)

/-- The sorted group keys are distinct. -/
theorem groupKeys_nodup (keyOf : Record → String) (T : List Record) :
    (groupKeys keyOf T).Nodup :=
  ((sortLeB_perm _ _).nodup_iff).mpr (List.nodup_dedup _)

/-- A string is a group key exactly when it is the key of some row. -/
theorem mem_groupKeys {keyOf : Record → String} {T : List Record} {k : String} :
    k ∈ groupKeys keyOf T ↔ k ∈ T.map keyOf := by
  unfold groupKeys
  rw [List.Perm.mem_iff (sortLeB_perm _ _), List.mem_dedup]

/-! ### Summing a group-by pass recovers the total -/

/-- Summing an indicator over a duplicate-free key list that contains `a`
picks out `c` exactly once. -/
theorem sum_map_ite_single {κ : Type} [DecidableEq κ] (a : κ) (c : ℚ) :
    ∀ ks : List κ, ks.Nodup → a ∈ ks →
      (ks.map fun k => if a = k then c else 0).sum = c := by
  intro ks
  induction ks with
  | nil => intro _ h; cases h
  | cons k ks ih =>
    intro hnd hmem
    rcases List.mem_cons.mp hmem with h | h
    · subst h
      have hnotin : a ∉ ks := (List.nodup_cons.mp hnd).1
      have hz : (ks.map fun k => if a = k then c else 0).sum = 0 := by
        apply List.sum_eq_zero
        intro x hx
        rcases List.mem_map.mp hx with ⟨k', hk', rfl⟩
        rw [if_neg]
        intro hak
        exact hnotin (hak ▸ hk')
      rw [List.map_cons, List.sum_cons, hz, add_zero, if_pos rfl]
    · have hne : a ≠ k := by
        rintro rfl
        exact (List.nodup_cons.mp hnd).1 h
      simp only [List.map_cons, List.sum_cons, if_neg hne]
      rw [ih (List.nodup_cons.mp hnd).2 h, zero_add]

/-- Prepending a row adds its price to exactly its own group. -/
theorem sumPricesBy_cons {κ : Type} [DecidableEq κ] (keyOf : Record → κ)
    (r : Record) (T : List Record) (k : κ) :
    sumPricesBy keyOf (r :: T) k =
      (if keyOf r = k then r.price else 0) + sumPricesBy keyOf T k := by
  by_cases h : keyOf r = k <;> simp [sumPricesBy, List.filter_cons, h]

/-- Group sums over any duplicate-free key list covering all rows add up to
the total price: a group-by pass is a partition of the record set. -/
theorem sum_over_partition {κ : Type} [DecidableEq κ] (keyOf : Record → κ) :
    ∀ (T : List Record) (ks : List κ), ks.Nodup → (∀ r ∈ T, keyOf r ∈ ks) →
      (ks.map fun k => sumPricesBy keyOf T k).sum = precoSum T := by
  intro T
  induction T with
  | nil =>
    intro ks _ _
    have hz : ∀ x ∈ ks.map fun k => sumPricesBy keyOf ([] : List Record) k, x = 0 := by
      intro x hx
      rcases List.mem_map.mp hx with ⟨k, _, rfl⟩
      simp [sumPricesBy]
    rw [List.sum_eq_zero hz]
    simp [precoSum]
  | cons r T ih =>
    intro ks hnd hcov
    have h1 : (ks.map fun k => sumPricesBy keyOf (r :: T) k) =
        ks.map fun k => (if keyOf r = k then r.price else 0) + sumPricesBy keyOf T k := by
      apply List.map_congr_left
      intro k _
      exact sumPricesBy_cons keyOf r T k
    rw [h1, List.sum_map_add,
      sum_map_ite_single (keyOf r) r.price ks hnd (hcov r (List.mem_cons_self r T)),
      ih ks hnd fun x hx => hcov x (List.mem_cons_of_mem r hx)]
    simp [precoSum]

/-! ### Bounds and permutation-invariance of the month bins -/

/-- Associativity of `Nat.min`, stated on `Nat.min` itself. -/
theorem natMin_assoc (a b c : ℕ) : Nat.min (Nat.min a b) c = Nat.min a (Nat.min b c) := by
  simp only [Nat.min_def]
  split_ifs <;> omega

/-- Commutativity of `Nat.min`, stated on `Nat.min` itself. -/
theorem natMin_comm (a b : ℕ) : Nat.min a b = Nat.min b a := by
  simp only [Nat.min_def]
  split_ifs <;> omega

/-- Idempotence of `Nat.min`, stated on `Nat.min` itself. -/
theorem natMin_self (a : ℕ) : Nat.min a a = a := by
  simp only [Nat.min_def]
  split_ifs <;> omega

/-- `Nat.min` is below its left argument. -/
theorem natMin_le_left (a b : ℕ) : Nat.min a b ≤ a := by
  simp only [Nat.min_def]
  split_ifs <;> omega

/-- `Nat.min` is below its right argument. -/
theorem natMin_le_right (a b : ℕ) : Nat.min a b ≤ b := by
  simp only [Nat.min_def]
  split_ifs <;> omega

/-- Associativity of `Nat.max`, stated on `Nat.max` itself. -/
theorem natMax_assoc (a b c : ℕ) : Nat.max (Nat.max a b) c = Nat.max a (Nat.max b c) := by
  simp only [Nat.max_def]
  split_ifs <;> omega

/-- Commutativity of `Nat.max`, stated on `Nat.max` itself. -/
theorem natMax_comm (a b : ℕ) : Nat.max a b = Nat.max b a := by
  simp only [Nat.max_def]
  split_ifs <;> omega

/-- Idempotence of `Nat.max`, stated on `Nat.max` itself. -/
theorem natMax_self (a : ℕ) : Nat.max a a = a := by
  simp only [Nat.max_def]
  split_ifs <;> omega

/-- `Nat.max` is above its left argument. -/
theorem le_natMax_left (a b : ℕ) : a ≤ Nat.max a b := by
  simp only [Nat.max_def]
  split_ifs <;> omega

/-- `Nat.max` is above its right argument. -/
theorem le_natMax_right (a b : ℕ) : b ≤ Nat.max a b := by
  simp only [Nat.max_def]
  split_ifs <;> omega

/-- Folding `Nat.min` can only shrink the accumulator. -/
theorem foldl_min_le_init : ∀ (l : List ℕ) (a : ℕ), l.foldl Nat.min a ≤ a := by
  intro l
  induction l with
  | nil => intro a; exact le_refl a
  | cons b l ih =>
    intro a
    exact le_trans (ih (Nat.min a b)) (natMin_le_left a b)

/-- The fold of `Nat.min` is below the accumulator and every element. -/
theorem foldl_min_le : ∀ (l : List ℕ) (a x : ℕ),
    x = a ∨ x ∈ l → l.foldl Nat.min a ≤ x := by
  intro l
  induction l with
  | nil =>
    rintro a x (rfl | h)
    · exact le_refl x
    · cases h
  | cons b l ih =>
    rintro a x (rfl | h)
    · exact le_trans (foldl_min_le_init l (Nat.min x b)) (natMin_le_left x b)
    · rcases List.mem_cons.mp h with rfl | h
      · exact le_trans (foldl_min_le_init l (Nat.min a x)) (natMin_le_right a x)
      · exact ih (Nat.min a b) x (Or.inr h)

/-- Folding `Nat.max` can only grow the accumulator. -/
theorem le_foldl_max_init : ∀ (l : List ℕ) (a : ℕ), a ≤ l.foldl Nat.max a := by
  intro l
  induction l with
  | nil => intro a; exact le_refl a
  | cons b l ih =>
    intro a
    exact le_trans (le_natMax_left a b) (ih (Nat.max a b))

/-- The fold of `Nat.max` is above the accumulator and every element. -/
theorem le_foldl_max : ∀ (l : List ℕ) (a x : ℕ),
    x = a ∨ x ∈ l → x ≤ l.foldl Nat.max a := by
  intro l
  induction l with
  | nil =>
    rintro a x (rfl | h)
    · exact le_refl x
    · cases h
  | cons b l ih =>
    rintro a x (rfl | h)
    · exact le_trans (le_natMax_left x b) (le_foldl_max_init l (Nat.max x b))
    · rcases List.mem_cons.mp h with rfl | h
      · exact le_trans (le_natMax_right a x) (le_foldl_max_init l (Nat.max a x))
      · exact ih (Nat.max a b) x (Or.inr h)

/-- Every row's month key lands in a bin. -/
theorem monthKey_mem_monthBins {T : List Record} {r : Record} (hr : r ∈ T) :
    monthKey r ∈ monthBins T := by
  have hmem : monthKey r ∈ T.map monthKey := List.mem_map_of_mem monthKey hr
  rcases hE : T.map monthKey with _ | ⟨k, ks⟩
  · rw [hE] at hmem; cases hmem
  · rw [hE] at hmem
    have hx : monthKey r = k ∨ monthKey r ∈ ks := List.mem_cons.mp hmem
    have hlo : ks.foldl Nat.min k ≤ monthKey r := foldl_min_le ks k _ hx
    have hhi : monthKey r ≤ ks.foldl Nat.max k := le_foldl_max ks k _ hx
    simp only [monthBins, hE]
    rw [List.mem_range'_1]
    omega

/-- The month bins carry no duplicates. -/
theorem monthBins_nodup (T : List Record) : (monthBins T).Nodup := by
  rcases hE : T.map monthKey with _ | ⟨k, ks⟩
  · simp [monthBins, hE]
  · simp only [monthBins, hE]
    exact List.nodup_range' _ _

/-- Pushing the accumulator through a `Nat.min` fold. -/
theorem foldl_min_init_comm : ∀ (l : List ℕ) (a b : ℕ),
    l.foldl Nat.min (Nat.min a b) = Nat.min a (l.foldl Nat.min b) := by
  intro l
  induction l with
  | nil => intro a b; rfl
  | cons c l ih =>
    intro a b
    show l.foldl Nat.min (Nat.min (Nat.min a b) c) = Nat.min a (l.foldl Nat.min (Nat.min b c))
    rw [natMin_assoc]
    exact ih a (Nat.min b c)

/-- Pushing the accumulator through a `Nat.max` fold. -/
theorem foldl_max_init_comm : ∀ (l : List ℕ) (a b : ℕ),
    l.foldl Nat.max (Nat.max a b) = Nat.max a (l.foldl Nat.max b) := by
  intro l
  induction l with
  | nil => intro a b; rfl
  | cons c l ih =>
    intro a b
    show l.foldl Nat.max (Nat.max (Nat.max a b) c) = Nat.max a (l.foldl Nat.max (Nat.max b c))
    rw [natMax_assoc]
    exact ih a (Nat.max b c)

/-- A `Nat.min` fold only depends on the multiset of elements. -/
theorem foldl_min_perm {l1 l2 : List ℕ} (h : List.Perm l1 l2) :
    ∀ a, l1.foldl Nat.min a = l2.foldl Nat.min a := by
  induction h with
  | nil => intro a; rfl
  | cons x _ ih => intro a; exact ih (Nat.min a x)
  | swap x y l =>
    intro a
    show l.foldl Nat.min (Nat.min (Nat.min a y) x) = l.foldl Nat.min (Nat.min (Nat.min a x) y)
    rw [natMin_assoc, natMin_assoc, natMin_comm y x]
  | trans _ _ ih1 ih2 => intro a; exact (ih1 a).trans (ih2 a)

/-- A `Nat.max` fold only depends on the multiset of elements. -/
theorem foldl_max_perm {l1 l2 : List ℕ} (h : List.Perm l1 l2) :
    ∀ a, l1.foldl Nat.max a = l2.foldl Nat.max a := by
  induction h with
  | nil => intro a; rfl
  | cons x _ ih => intro a; exact ih (Nat.max a x)
  | swap x y l =>
    intro a
    show l.foldl Nat.max (Nat.max (Nat.max a y) x) = l.foldl Nat.max (Nat.max (Nat.max a x) y)
    rw [natMax_assoc, natMax_assoc, natMax_comm y x]
  | trans _ _ ih1 ih2 => intro a; exact (ih1 a).trans (ih2 a)

/-- The head-seeded `Nat.min` fold agrees across permutations. -/
theorem foldl_min_head_eq {k k' : ℕ} {ks ks' : List ℕ}
    (h : List.Perm (k :: ks) (k' :: ks')) :
    ks.foldl Nat.min k = ks'.foldl Nat.min k' := by
  have h1 : ks.foldl Nat.min k = (k :: ks).foldl Nat.min k := by
    show ks.foldl Nat.min k = ks.foldl Nat.min (Nat.min k k)
    rw [natMin_self]
  have h1' : ks'.foldl Nat.min k' = (k' :: ks').foldl Nat.min k' := by
    show ks'.foldl Nat.min k' = ks'.foldl Nat.min (Nat.min k' k')
    rw [natMin_self]
  have e1 : ks.foldl Nat.min k = Nat.min k (ks'.foldl Nat.min k') := by
    rw [h1, foldl_min_perm h k]
    exact foldl_min_init_comm ks' k k'
  have e2 : ks'.foldl Nat.min k' = Nat.min k' (ks.foldl Nat.min k) := by
    rw [h1', foldl_min_perm h.symm k']
    exact foldl_min_init_comm ks k' k
  refine le_antisymm ?_ ?_
  · rw [e1]; exact natMin_le_right _ _
  · rw [e2]; exact natMin_le_right _ _

/-- The head-seeded `Nat.max` fold agrees across permutations. -/
theorem foldl_max_head_eq {k k' : ℕ} {ks ks' : List ℕ}
    (h : List.Perm (k :: ks) (k' :: ks')) :
    ks.foldl Nat.max k = ks'.foldl Nat.max k' := by
  have h1 : ks.foldl Nat.max k = (k :: ks).foldl Nat.max k := by
    show ks.foldl Nat.max k = ks.foldl Nat.max (Nat.max k k)
    rw [natMax_self]
  have h1' : ks'.foldl Nat.max k' = (k' :: ks').foldl Nat.max k' := by
    show ks'.foldl Nat.max k' = ks'.foldl Nat.max (Nat.max k' k')
    rw [natMax_self]
  have e1 : ks.foldl Nat.max k = Nat.max k (ks'.foldl Nat.max k') := by
    rw [h1, foldl_max_perm h k]
    exact foldl_max_init_comm ks' k k'
  have e2 : ks'.foldl Nat.max k' = Nat.max k' (ks.foldl Nat.max k) := by
    rw [h1', foldl_max_perm h.symm k']
    exact foldl_max_init_comm ks k' k
  refine le_antisymm ?_ ?_
  · rw [e2]; exact le_natMax_right _ _
  · rw [e1]; exact le_natMax_right _ _

/-- The month bins are a function of the multiset of rows. -/
theorem monthBins_perm_eq {T T' : List Record} (h : List.Perm T T') :
    monthBins T = monthBins T' := by
  have hm : List.Perm (T.map monthKey) (T'.map monthKey) := h.map monthKey
  rcases hE : T.map monthKey with _ | ⟨k, ks⟩ <;>
    rcases hE' : T'.map monthKey with _ | ⟨k', ks'⟩
  · simp [monthBins, hE, hE']
  · rw [hE, hE'] at hm
    exact absurd hm.symm.eq_nil (by simp)
  · rw [hE, hE'] at hm
    exact absurd hm.eq_nil (by simp)
  · rw [hE, hE'] at hm
    simp only [monthBins, hE, hE']
    rw [foldl_min_head_eq hm, foldl_max_head_eq hm]

/-- Per-group sums are a function of the multiset of rows. -/
theorem sumPricesBy_perm {κ : Type} [DecidableEq κ] (keyOf : Record → κ)
    {T T' : List Record} (h : List.Perm T T') (k : κ) :
    sumPricesBy keyOf T k = sumPricesBy keyOf T' k :=
  ((h.filter _).map Record.price).sum_eq

/-- Per-group counts are a function of the multiset of rows. -/
theorem countBy_perm {κ : Type} [DecidableEq κ] (keyOf : Record → κ)
    {T T' : List Record} (h : List.Perm T T') (k : κ) :
    countBy keyOf T k = countBy keyOf T' k :=
  (h.filter _).length_eq

/-! ### First-occurrence facts about `dropDupLocals` -/

/-- A name occurs among the kept rows exactly when it occurs in the table
and was not already seen. -/
theorem dropDupLocals_names : ∀ (T : List Record) (seen : List String) (n : String),
    n ∈ (dropDupLocals T seen).map Record.localName ↔
      n ∈ T.map Record.localName ∧ n ∉ seen := by
  intro T
  induction T with
  | nil => intro seen n; simp [dropDupLocals]
  | cons r T ih =>
    intro seen n
    by_cases hmem : r.localName ∈ seen
    · rw [dropDupLocals, if_pos hmem, ih seen n]
      simp only [List.map_cons, List.mem_cons]
      constructor
      · rintro ⟨h1, h2⟩
        exact ⟨Or.inr h1, h2⟩
      · rintro ⟨h1 | h1, h2⟩
        · exact absurd (h1 ▸ hmem) h2
        · exact ⟨h1, h2⟩
    · rw [dropDupLocals, if_neg hmem]
      simp only [List.map_cons, List.mem_cons]
      rw [ih (r.localName :: seen) n]
      constructor
      · rintro (rfl | ⟨h1, h2⟩)
        · exact ⟨Or.inl rfl, hmem⟩
        · exact ⟨Or.inr h1, fun hn => h2 (List.mem_cons_of_mem _ hn)⟩
      · rintro ⟨h1 | h1, h2⟩
        · exact Or.inl h1
        · by_cases hrn : n = r.localName
          · exact Or.inl hrn
          · exact Or.inr ⟨h1, fun hn => (List.mem_cons.mp hn).elim hrn h2⟩

/-- The kept rows carry pairwise distinct location names. -/
theorem dropDupLocals_names_nodup :
    ∀ (T : List Record) (seen : List String),
      ((dropDupLocals T seen).map Record.localName).Nodup := by
  intro T
  induction T with
  | nil => intro seen; simp [dropDupLocals]
  | cons r T ih =>
    intro seen
    by_cases hmem : r.localName ∈ seen
    · rw [dropDupLocals, if_pos hmem]
      exact ih seen
    · rw [dropDupLocals, if_neg hmem]
      simp only [List.map_cons]
      refine List.nodup_cons.mpr ⟨?_, ih (r.localName :: seen)⟩
      intro hn
      exact ((dropDupLocals_names T (r.localName :: seen) r.localName).mp hn).2
        (List.mem_cons_self _ _)

/-- A kept row's name was not previously seen. -/
theorem dropDupLocals_not_seen {T : List Record} {seen : List String} {r : Record}
    (h : r ∈ dropDupLocals T seen) : r.localName ∉ seen :=
  ((dropDupLocals_names T seen r.localName).mp
    (List.mem_map_of_mem Record.localName h)).2

/-- Every kept row is the first row of the table bearing its location name:
this is the "first-seen coordinates win" behaviour of `drop_duplicates`. -/
theorem dropDupLocals_first : ∀ (T : List Record) (seen : List String) (r : Record),
    r ∈ dropDupLocals T seen →
      T.find? (fun x => decide (x.localName = r.localName)) = some r := by
  intro T
  induction T with
  | nil => intro seen r h; cases h
  | cons t T ih =>
    intro seen r hr
    by_cases hmem : t.localName ∈ seen
    · rw [dropDupLocals, if_pos hmem] at hr
      have hne : ¬ t.localName = r.localName := by
        intro he
        exact dropDupLocals_not_seen hr (he ▸ hmem)
      rw [List.find?_cons]
      simp only [decide_eq_false hne]
      exact ih seen r hr
    · rw [dropDupLocals, if_neg hmem] at hr
      rcases List.mem_cons.mp hr with rfl | hr
      · rw [List.find?_cons]
        simp
      · have hne : ¬ t.localName = r.localName := by
          intro he
          exact dropDupLocals_not_seen hr (he ▸ List.mem_cons_self _ _)
        rw [List.find?_cons]
        simp only [decide_eq_false hne]
        exact ih (t.localName :: seen) r hr

/-! ### Assembled partition sums -/

/-- Group sums over the sorted string group keys add to the total. -/
theorem sum_over_groupKeys (keyOf : Record → String) (T : List Record) :
    ((groupKeys keyOf T).map fun k => sumPricesBy keyOf T k).sum = precoSum T :=
  sum_over_partition keyOf T (groupKeys keyOf T) (groupKeys_nodup keyOf T)
    fun _ hr => mem_groupKeys.mpr (List.mem_map_of_mem keyOf hr)

/-- Per-location group sums, one per kept first-occurrence row, add to the
total. -/
theorem sum_over_locals (T : List Record) :
    ((dropDupLocals T []).map fun r => sumPricesBy Record.localName T r.localName).sum
      = precoSum T := by
  have h1 : ((dropDupLocals T []).map fun r => sumPricesBy Record.localName T r.localName)
      = ((dropDupLocals T []).map Record.localName).map
          fun n => sumPricesBy Record.localName T n := by
    rw [List.map_map]
    rfl
  rw [h1]
  apply sum_over_partition Record.localName T _ (dropDupLocals_names_nodup T [])
  intro r hr
  exact (dropDupLocals_names T [] r.localName).mpr ⟨List.mem_map_of_mem _ hr, by simp⟩

/-! ### Claim theorems -/

/-- C1: the claim that the dashboard renders on an empty fetch is wrong on
the code: after a simulated HTTP 500, `fetch_data` returns `pd.DataFrame()`,
which has no columns, so line 77 (`datas["Data da Compra"]`) raises
`KeyError` and the script aborts before any aggregation or metric runs.
The modelled pipeline returns that error instead of a rendered view. -/
theorem runDashboard_keyerror_on_empty_fetch :
    runDashboard (.response 500 none) [] = Except.error "KeyError: Data da Compra" := rfl

/-- C2 (amended): the formatter's reference vectors hold with the code's
literal unit string `"mil"` in place of the spec's `"thousand"`, and for
`1000 ≤ value < 1000000` the value is divided once by 1000 and the unit
`"mil"` is appended. -/
theorem format_number_reference_vectors :
    format_number 500 "" = " 500.00 " ∧
    format_number 1500 "" = " 1.50 mil" ∧
    format_number 2500000 "" = " 2.50 million" ∧
    format_number 1500 "R$" = "R$ 1.50 mil" ∧
    ∀ (v : ℚ) (p : String), 1000 ≤ v → v < 1000000 →
      format_number v p = p ++ " " ++ formatFixed2 (v / 1000) ++ " mil" := by
  refine ⟨by with_unfolding_all decide, by with_unfolding_all decide,
    by with_unfolding_all decide, by with_unfolding_all decide, ?_⟩
  intro v p h1 h2
  unfold format_number
  rw [if_neg (not_lt.mpr h1), if_pos]
  rw [div_lt_iff (by norm_num : (0:ℚ) < 1000)]
  norm_num
  exact h2

/-- C2 counterexample: the unit the code appends is `"mil"`, so the spec's
reference vector `format_number(1500) == " 1.50 thousand"` is false. -/
theorem format_number_not_thousand_unit :
    format_number 1500 "" ≠ " 1.50 thousand" ∧ format_number 1500 "" = " 1.50 mil" :=
  ⟨by with_unfolding_all decide, by with_unfolding_all decide⟩

/-- C2 witness: the general thousand-range clause applied at `1500`, `"R$"`. -/
theorem format_number_reference_vectors_witness :
    (1000 ≤ (1500 : ℚ)) ∧ ((1500 : ℚ) < 1000000) ∧
    format_number 1500 "R$" = "R$" ++ " " ++ formatFixed2 ((1500 : ℚ) / 1000) ++ " mil" :=
  ⟨by norm_num, by norm_num,
    format_number_reference_vectors.2.2.2.2 1500 "R$" (by norm_num) (by norm_num)⟩

/-- C3 (amended): every value at least one million is rendered as
`value / 10^6` with two decimals and the unit `"million"` (two divisions by
1000, never a larger unit); values at least `10^9` therefore show a numeral
that is at least 1000 — equal to 1000 exactly at `10^9`. -/
theorem format_number_million_branch :
    ∀ (v : ℚ) (p : String), 1000000 ≤ v →
      format_number v p = p ++ " " ++ formatFixed2 (v / 1000 / 1000) ++ " million" ∧
      (1000000000 ≤ v → 1000 ≤ v / 1000 / 1000) := by
  intro v p h
  constructor
  · unfold format_number
    rw [if_neg (not_lt.mpr (by linarith)), if_neg (not_lt.mpr ?_)]
    rw [le_div_iff (by norm_num : (0:ℚ) < 1000)]
    norm_num
    exact h
  · intro h9
    rw [div_div, le_div_iff (by norm_num : (0:ℚ) < 1000 * 1000)]
    have he : (1000 : ℚ) * (1000 * 1000) = 1000000000 := by norm_num
    rw [he]
    exact h9

/-- C3 counterexample: at exactly `10^9` the rendered numeral is exactly
`1000.00`, so "values ≥ 10^9 … their numeral exceeds 1000" fails (while the
unit is still `"million"`). -/
theorem format_number_exactly_billion_numeral :
    format_number 1000000000 "" = " 1000.00 million" ∧
    ¬ (1000 < (1000000000 : ℚ) / 1000 / 1000) :=
  ⟨by with_unfolding_all decide, by norm_num⟩

/-- C3 witness: the million branch applied at `2.5·10^9`, with the inner
billion clause discharged as well. -/
theorem format_number_million_branch_witness :
    (1000000 ≤ (2500000000 : ℚ)) ∧
    format_number 2500000000 "" =
      "" ++ " " ++ formatFixed2 ((2500000000 : ℚ) / 1000 / 1000) ++ " million" ∧
    (1000 : ℚ) ≤ (2500000000 : ℚ) / 1000 / 1000 :=
  ⟨by norm_num,
    (format_number_million_branch 2500000000 "" (by norm_num)).1,
    (format_number_million_branch 2500000000 "" (by norm_num)).2 (by norm_num)⟩

/-- C4: the seller filter keeps a subsequence of the table; with a nonempty
selection it is exactly the rows whose seller is selected (so every kept
row's seller is in the selection, in original order), and with an empty
selection it is the identity. -/
theorem applySellerFilter_spec (T : List Record) (S : List String) :
    (applySellerFilter S T).Sublist T ∧
    (S ≠ [] →
      applySellerFilter S T = T.filter (fun r => decide (r.seller ∈ S)) ∧
      ∀ r ∈ applySellerFilter S T, r.seller ∈ S) ∧
    (S = [] → applySellerFilter S T = T) := by
  refine ⟨?_, ?_, ?_⟩
  · unfold applySellerFilter
    split
    · exact List.Sublist.refl T
    · exact List.filter_sublist T
  · intro hS
    have hne : ¬ (S.isEmpty = true) := by
      cases S
      · exact absurd rfl hS
      · simp [List.isEmpty]
    unfold applySellerFilter
    rw [if_neg hne]
    refine ⟨rfl, ?_⟩
    intro r hr
    have hmem := (List.mem_filter.mp hr).2
    exact of_decide_eq_true hmem
  · rintro rfl
    rfl

/-- C4 witness: the filter contract at a concrete table, for the nonempty
selection `["Alice"]` and for the empty selection. -/
theorem applySellerFilter_spec_witness :
    (["Alice"] ≠ ([] : List String)) ∧
    applySellerFilter ["Alice"] [rAliceSP, rBobSP, rCaraRJ] =
      [rAliceSP, rBobSP, rCaraRJ].filter (fun r => decide (r.seller ∈ ["Alice"])) ∧
    (applySellerFilter ["Alice"] [rAliceSP, rBobSP, rCaraRJ]).Sublist
      [rAliceSP, rBobSP, rCaraRJ] ∧
    applySellerFilter [] [rAliceSP, rBobSP, rCaraRJ] = [rAliceSP, rBobSP, rCaraRJ] :=
  ⟨by decide,
    ((applySellerFilter_spec [rAliceSP, rBobSP, rCaraRJ] ["Alice"]).2.1 (by decide)).1,
    (applySellerFilter_spec [rAliceSP, rBobSP, rCaraRJ] ["Alice"]).1,
    (applySellerFilter_spec [rAliceSP, rBobSP, rCaraRJ] []).2.2 rfl⟩

/-- C5 (amended): `fetch_data` is total (it never raises): on a transport
failure, on a 4xx/5xx response (the statuses `raise_for_status` raises
for), and on an unparseable body it reports the failure and returns the
empty frame.  (A non-2xx status below 400 with a parseable JSON body is
*not* reported and its rows are returned — see the counterexample.) -/
theorem fetch_data_fail_soft (status : ℕ) (body : Option (List Record)) (m : String) :
    (400 ≤ status → status < 600 →
      (fetch_data (.response status body)).2.rows = [] ∧
      (fetch_data (.response status body)).1 ≠ []) ∧
    ((fetch_data (.networkFailure m)).2.rows = [] ∧
      (fetch_data (.networkFailure m)).1 ≠ []) ∧
    ((fetch_data (.response status none)).2.rows = [] ∧
      (fetch_data (.response status none)).1 ≠ []) := by
  refine ⟨?_, ⟨rfl, by simp [fetch_data]⟩, ?_⟩
  · intro h4 h6
    simp only [fetch_data]
    rw [if_pos ⟨h4, h6⟩]
    exact ⟨rfl, by simp⟩
  · simp only [fetch_data]
    by_cases h : 400 ≤ status ∧ status < 600
    · rw [if_pos h]
      exact ⟨rfl, by simp⟩
    · rw [if_neg h]
      exact ⟨rfl, by simp⟩

/-- C5 counterexample: a 300 response with a parseable one-row body is a
non-2xx HTTP response, yet `fetch_data` returns its rows and reports
nothing — `raise_for_status` only raises for 4xx/5xx. -/
theorem fetch_data_non2xx_not_reported :
    (fetch_data (.response 300 (some [rAliceSP]))).2.rows = [rAliceSP] ∧
    (fetch_data (.response 300 (some [rAliceSP]))).2.rows ≠ [] ∧
    (fetch_data (.response 300 (some [rAliceSP]))).1 = [] :=
  ⟨rfl, by with_unfolding_all decide, rfl⟩

/-- C5 witness: the fail-soft contract at a simulated HTTP 500 and at a
concrete transport failure. -/
theorem fetch_data_fail_soft_witness :
    ((400 : ℕ) ≤ 500) ∧ ((500 : ℕ) < 600) ∧
    (fetch_data (.response 500 (some [rAliceSP]))).2.rows = [] ∧
    (fetch_data (.response 500 (some [rAliceSP]))).1 ≠ [] ∧
    (fetch_data (.networkFailure "Connection refused")).2.rows = [] :=
  ⟨by decide, by decide,
    ((fetch_data_fail_soft 500 (some [rAliceSP]) "Connection refused").1
      (by decide) (by decide)).1,
    ((fetch_data_fail_soft 500 (some [rAliceSP]) "Connection refused").1
      (by decide) (by decide)).2,
    (fetch_data_fail_soft 500 (some [rAliceSP]) "Connection refused").2.1.1⟩

/-- C6: each aggregation pass partitions the record set, so the per-group
price sums of the monthly, geographic, category and seller passes each add
up to the total `sum(price)` of the table. -/
theorem aggregation_sum_invariant (T : List Record) :
    ((monthly_income T).map Prod.snd).sum = precoSum T ∧
    ((income_of_the_states T).map StateRow.val).sum = precoSum T ∧
    ((income_by_category T).map Prod.snd).sum = precoSum T ∧
    ((vendedores T).map SellerRow.sum).sum = precoSum T := by
  refine ⟨?_, ?_, ?_, ?_⟩
  · have h1 : (monthly_income T).map Prod.snd
        = (monthBins T).map fun k => sumPricesBy monthKey T k := by
      simp [monthly_income, List.map_map, Function.comp_def]
    rw [h1]
    exact sum_over_partition monthKey T (monthBins T) (monthBins_nodup T)
      fun r hr => monthKey_mem_monthBins hr
  · unfold income_of_the_states
    rw [((sort_values_desc_perm _ _).map StateRow.val).sum_eq]
    have h1 : (((dropDupLocals T []).map fun r =>
        (⟨r.localName, r.lat, r.lon, sumPricesBy Record.localName T r.localName⟩ :
          StateRow ℚ)).map StateRow.val)
        = (dropDupLocals T []).map fun r => sumPricesBy Record.localName T r.localName := by
      simp [List.map_map, Function.comp_def]
    rw [h1]
    exact sum_over_locals T
  · unfold income_by_category
    rw [((sort_values_desc_perm _ _).map Prod.snd).sum_eq]
    have h1 : (((groupKeys Record.category T).map fun k =>
        (k, sumPricesBy Record.category T k)).map Prod.snd)
        = (groupKeys Record.category T).map fun k => sumPricesBy Record.category T k := by
      simp [List.map_map, Function.comp_def]
    rw [h1]
    exact sum_over_groupKeys Record.category T
  · unfold vendedores
    have h1 : (((groupKeys Record.seller T).map fun k =>
        (⟨k, sumPricesBy Record.seller T k, countBy Record.seller T k⟩ : SellerRow)).map
          SellerRow.sum)
        = (groupKeys Record.seller T).map fun k => sumPricesBy Record.seller T k := by
      simp [List.map_map, Function.comp_def]
    rw [h1]
    exact sum_over_groupKeys Record.seller T

/-- C7: monthly aggregation is order-independent: permuting the table
changes neither the per-month bucketed sums nor the per-month counts (the
bucket range itself only depends on the multiset of purchase months). -/
theorem monthly_aggregation_perm_invariant (T T' : List Record)
    (h : List.Perm T T') :
    monthly_income T = monthly_income T' ∧ vendas_mensal T = vendas_mensal T' := by
  constructor
  · unfold monthly_income
    rw [monthBins_perm_eq h]
    apply List.map_congr_left
    intro k _
    exact congrArg (fun x => (k, x)) (sumPricesBy_perm monthKey h k)
  · unfold vendas_mensal
    rw [monthBins_perm_eq h]
    apply List.map_congr_left
    intro k _
    exact congrArg (fun x => (k, x)) (countBy_perm monthKey h k)

/-- C7 witness: order-independence at a concrete two-row table and its
swap. -/
theorem monthly_aggregation_perm_invariant_witness :
    List.Perm [rAliceSP, rCaraRJ] [rCaraRJ, rAliceSP] ∧
    monthly_income [rAliceSP, rCaraRJ] = monthly_income [rCaraRJ, rAliceSP] ∧
    vendas_mensal [rAliceSP, rCaraRJ] = vendas_mensal [rCaraRJ, rAliceSP] :=
  ⟨List.Perm.swap rCaraRJ rAliceSP [],
    (monthly_aggregation_perm_invariant [rAliceSP, rCaraRJ] [rCaraRJ, rAliceSP]
      (List.Perm.swap rCaraRJ rAliceSP [])).1,
    (monthly_aggregation_perm_invariant [rAliceSP, rCaraRJ] [rCaraRJ, rAliceSP]
      (List.Perm.swap rCaraRJ rAliceSP [])).2⟩

/-- C9: the geographic rollup has exactly one row per location name (its
name column is a permutation of the distinct location names); each row
carries the per-location price sum (respectively record count) and the
latitude/longitude of the *first* record of the table bearing that name, so
when one name occurs with several coordinate pairs only the first-seen pair
survives. -/
theorem geo_rollup_spec (T : List Record) :
    (List.Perm ((income_of_the_states T).map StateRow.name)
        (T.map Record.localName).dedup ∧
      List.Perm ((vendas_estados T).map StateRow.name)
        (T.map Record.localName).dedup) ∧
    (∀ e, e ∈ income_of_the_states T →
      e.val = sumPricesBy Record.localName T e.name ∧
      ∃ r, T.find? (fun x => decide (x.localName = e.name)) = some r ∧
        e.lat = r.lat ∧ e.lon = r.lon) ∧
    (∀ e, e ∈ vendas_estados T →
      e.val = countBy Record.localName T e.name ∧
      ∃ r, T.find? (fun x => decide (x.localName = e.name)) = some r ∧
        e.lat = r.lat ∧ e.lon = r.lon) := by
  have hnames : ∀ n : String,
      n ∈ (dropDupLocals T []).map Record.localName ↔
        n ∈ (T.map Record.localName).dedup := by
    intro n
    rw [dropDupLocals_names T [] n, List.mem_dedup]
    simp
  have hdd : List.Perm ((dropDupLocals T []).map Record.localName)
      (T.map Record.localName).dedup :=
    (List.perm_ext_iff_of_nodup (dropDupLocals_names_nodup T [])
      (List.nodup_dedup _)).mpr hnames
  refine ⟨⟨?_, ?_⟩, ?_, ?_⟩
  · unfold income_of_the_states
    have h1 : (((dropDupLocals T []).map fun r =>
        (⟨r.localName, r.lat, r.lon, sumPricesBy Record.localName T r.localName⟩ :
          StateRow ℚ)).map StateRow.name)
        = (dropDupLocals T []).map Record.localName := by
      simp [List.map_map, Function.comp_def]
    exact (((sort_values_desc_perm _ _).map StateRow.name).trans (h1 ▸ List.Perm.refl _)).trans hdd
  · unfold vendas_estados
    have h1 : (((dropDupLocals T []).map fun r =>
        (⟨r.localName, r.lat, r.lon, countBy Record.localName T r.localName⟩ :
          StateRow ℕ)).map StateRow.name)
        = (dropDupLocals T []).map Record.localName := by
      simp [List.map_map, Function.comp_def]
    exact (((sort_values_desc_perm _ _).map StateRow.name).trans (h1 ▸ List.Perm.refl _)).trans hdd
  · intro e he
    have he' : e ∈ (dropDupLocals T []).map fun r =>
        (⟨r.localName, r.lat, r.lon, sumPricesBy Record.localName T r.localName⟩ :
          StateRow ℚ) :=
      ((sort_values_desc_perm _ _).mem_iff).mp he
    rcases List.mem_map.mp he' with ⟨r, hr, rfl⟩
    exact ⟨rfl, r, dropDupLocals_first T [] r hr, rfl, rfl⟩
  · intro e he
    have he' : e ∈ (dropDupLocals T []).map fun r =>
        (⟨r.localName, r.lat, r.lon, countBy Record.localName T r.localName⟩ :
          StateRow ℕ) :=
      ((sort_values_desc_perm _ _).mem_iff).mp he
    rcases List.mem_map.mp he' with ⟨r, hr, rfl⟩
    exact ⟨rfl, r, dropDupLocals_first T [] r hr, rfl, rfl⟩

set_option maxRecDepth 8000 in
/-- C9 witness: on a table where location SP occurs twice with different
coordinates, the SP row of both per-state tables carries the coordinates
(1, 2) of the first SP record, not the (3, 4) of the second. -/
theorem geo_rollup_spec_witness :
    ((⟨"SP", 1, 2, 15⟩ : StateRow ℚ) ∈ income_of_the_states [rAliceSP, rBobSP, rCaraRJ]) ∧
    ((⟨"SP", 1, 2, 15⟩ : StateRow ℚ).val =
        sumPricesBy Record.localName [rAliceSP, rBobSP, rCaraRJ]
          (⟨"SP", 1, 2, 15⟩ : StateRow ℚ).name ∧
      ∃ r, [rAliceSP, rBobSP, rCaraRJ].find?
          (fun x => decide (x.localName = (⟨"SP", 1, 2, 15⟩ : StateRow ℚ).name)) = some r ∧
        (⟨"SP", 1, 2, 15⟩ : StateRow ℚ).lat = r.lat ∧
        (⟨"SP", 1, 2, 15⟩ : StateRow ℚ).lon = r.lon) ∧
    ((⟨"SP", 1, 2, 2⟩ : StateRow ℕ) ∈ vendas_estados [rAliceSP, rBobSP, rCaraRJ]) ∧
    ((⟨"SP", 1, 2, 2⟩ : StateRow ℕ).val =
        countBy Record.localName [rAliceSP, rBobSP, rCaraRJ]
          (⟨"SP", 1, 2, 2⟩ : StateRow ℕ).name ∧
      ∃ r, [rAliceSP, rBobSP, rCaraRJ].find?
          (fun x => decide (x.localName = (⟨"SP", 1, 2, 2⟩ : StateRow ℕ).name)) = some r ∧
        (⟨"SP", 1, 2, 2⟩ : StateRow ℕ).lat = r.lat ∧
        (⟨"SP", 1, 2, 2⟩ : StateRow ℕ).lon = r.lon) := by
  have hm1 : (⟨"SP", 1, 2, 15⟩ : StateRow ℚ) ∈
      income_of_the_states [rAliceSP, rBobSP, rCaraRJ] := by
    with_unfolding_all decide
  have hm2 : (⟨"SP", 1, 2, 2⟩ : StateRow ℕ) ∈
      vendas_estados [rAliceSP, rBobSP, rCaraRJ] := by
    with_unfolding_all decide
  exact ⟨hm1, (geo_rollup_spec [rAliceSP, rBobSP, rCaraRJ]).2.1 _ hm1,
    hm2, (geo_rollup_spec [rAliceSP, rBobSP, rCaraRJ]).2.2 _ hm2⟩

/-- C10: every negative value takes the under-1000 branch immediately: the
result is the prefix, the raw value rendered with two decimals, and the
trailing space of the empty unit — never a division, never `"mil"` or
`"million"`, however large the magnitude. -/
theorem format_number_negative_branch :
    ∀ (v : ℚ) (p : String), v < 0 →
      format_number v p = p ++ " " ++ formatFixed2 v ++ " " := by
  intro v p h
  unfold format_number
  rw [if_pos (by linarith : v < 1000)]

/-- C10 witness: the negative branch at `-2000000`, matching the claim's
reference vector `" -2000000.00 "`. -/
theorem format_number_negative_branch_witness :
    ((-2000000 : ℚ) < 0) ∧ format_number (-2000000) "" = " -2000000.00 " :=
  ⟨by norm_num,
    (format_number_negative_branch (-2000000) "" (by norm_num)).trans
      (by with_unfolding_all decide)⟩

end Dashboard
